import Mathlib

/-!
Verification development for the layout-driven PDF line-extraction core of the
`odoo_importer` repository.

The Python source is shallowly embedded:

* text is modelled as `List Char`;
* the floating-point numbers of the source (pdfplumber coordinates, parsed
  quantities/prices/discounts) are modelled as exact rationals `ℚ`;
* arithmetic on those rationals is expressed through the kernel-computable
  wrappers `qAdd`, `qSub`, `qMul`, `qDiv`, `qAbs` below (the standard `ℚ`
  operations are `@[irreducible]` in this toolchain and do not evaluate inside
  `decide`); each wrapper is proved equal to the standard operation;
* Python functions that raise are modelled with `Except`, functions that
  return `None` with `Option`;
* the specific regular expressions of the source are implemented directly as
  executable character-list matchers, one definition per pattern.
-/

/-! ## Kernel-computable rational arithmetic -/

/-- Addition on `ℚ` via `Rat.divInt`, evaluable by the kernel. -/
def qAdd (a b : ℚ) : ℚ := Rat.divInt (a.num * b.den + b.num * a.den) (a.den * b.den)

/-- Subtraction on `ℚ` via `Rat.divInt`, evaluable by the kernel. -/
def qSub (a b : ℚ) : ℚ := Rat.divInt (a.num * b.den - b.num * a.den) (a.den * b.den)

/-- Multiplication on `ℚ` via `Rat.divInt`, evaluable by the kernel. -/
def qMul (a b : ℚ) : ℚ := Rat.divInt (a.num * b.num) (a.den * b.den)

/-- Division on `ℚ` via `Rat.divInt`, evaluable by the kernel. -/
def qDiv (a b : ℚ) : ℚ := Rat.divInt (a.num * b.den) (b.num * a.den)

/-- Absolute value on `ℚ`, evaluable by the kernel. -/
def qAbs (a : ℚ) : ℚ := if a.num < 0 then Rat.neg a else a

/-- Floor of a rational, evaluable by the kernel (`Int.fdiv` rounds toward
negative infinity, so dividing the numerator by the positive denominator is
the floor). -/
def qFloor (q : ℚ) : ℤ := q.num.fdiv q.den

/-! ## Character and character-list utilities

Python's `str` is modelled as `List Char`.  Case mapping and accent
stripping are implemented character-wise for ASCII plus the Spanish accented
letters that occur in this repository's texts; this models Python's
`str.upper`/`str.lower` and the `unicodedata.normalize("NFD", ·)` +
drop-combining-marks idiom of the source for those characters. -/

def isDigitC (c : Char) : Bool := '0' ≤ c && c ≤ '9'

def isAsciiUpperC (c : Char) : Bool := 'A' ≤ c && c ≤ 'Z'

def isAsciiLowerC (c : Char) : Bool := 'a' ≤ c && c ≤ 'z'

def isAsciiAlphaC (c : Char) : Bool := isAsciiUpperC c || isAsciiLowerC c

def isAlnumC (c : Char) : Bool := isAsciiAlphaC c || isDigitC c

/-- Python `\s` (whitespace) for the characters relevant here. -/
def isSpaceC (c : Char) : Bool :=
  c = ' ' || c = '\t' || c = '\n' || c = '\r' || c = '\x0b' || c = '\x0c'

/-- Python `str.upper`, character-wise, for ASCII and Spanish accented letters. -/
def pyUpperC (c : Char) : Char :=
  if isAsciiLowerC c then Char.ofNat (c.toNat - 32)
  else match c with
    | 'á' => 'Á' | 'é' => 'É' | 'í' => 'Í' | 'ó' => 'Ó' | 'ú' => 'Ú'
    | 'ü' => 'Ü' | 'ñ' => 'Ñ'
    | _ => c

/-- Python `str.lower`, character-wise, for ASCII and Spanish accented letters. -/
def pyLowerC (c : Char) : Char :=
  if isAsciiUpperC c then Char.ofNat (c.toNat + 32)
  else match c with
    | 'Á' => 'á' | 'É' => 'é' | 'Í' => 'í' | 'Ó' => 'ó' | 'Ú' => 'ú'
    | 'Ü' => 'ü' | 'Ñ' => 'ñ'
    | _ => c

/-- NFD-decompose and drop combining marks, character-wise, for the accented
Latin letters used by this repository (models
`unicodedata.normalize("NFD", s)` followed by removing category-`Mn`
characters). -/
def stripAccentC (c : Char) : Char :=
  match c with
  | 'á' => 'a' | 'é' => 'e' | 'í' => 'i' | 'ó' => 'o' | 'ú' => 'u'
  | 'ü' => 'u' | 'ñ' => 'n'
  | 'Á' => 'A' | 'É' => 'E' | 'Í' => 'I' | 'Ó' => 'O' | 'Ú' => 'U'
  | 'Ü' => 'U' | 'Ñ' => 'N'
  | _ => c

def pyUpperL (s : List Char) : List Char := s.map pyUpperC

def pyLowerL (s : List Char) : List Char := s.map pyLowerC

def stripAccentsL (s : List Char) : List Char := s.map stripAccentC

/-- Does `s` start with `pre`? -/
def startsWithL (pre s : List Char) : Bool :=
  match pre, s with
  | [], _ => true
  | _ :: _, [] => false
  | p :: ps, c :: cs => p = c && startsWithL ps cs

/-- Python `needle in hay` on strings. -/
def containsSub (hay needle : List Char) : Bool :=
  match hay with
  | [] => needle.isEmpty
  | _ :: rest => startsWithL needle hay || containsSub rest needle

/-- Python `str.strip()` (strip whitespace from both ends). -/
def pyStrip (s : List Char) : List Char :=
  ((s.dropWhile isSpaceC).reverse.dropWhile isSpaceC).reverse

/-- Python `"sep".join`, with a single-space separator. -/
def joinSpace (parts : List (List Char)) : List Char :=
  List.intercalate [' '] parts

/-- Python `str.replace(",", ".")`. -/
def commaToDot (s : List Char) : List Char :=
  s.map (fun c => if c = ',' then '.' else c)

/-- Helper for `splitlinesL`; accumulates the current line (reversed). -/
def splitlinesGo (cur : List Char) : List Char → List (List Char)
  | [] => [cur.reverse]
  | c :: rest =>
    if c = '\n' then
      cur.reverse :: (match rest with
        | [] => []
        | _ => splitlinesGo [] rest)
    else splitlinesGo (c :: cur) rest

/-- Python `str.splitlines()` for `\n`-separated text (the texts this
repository splits are joined with `"\n"`). -/
def splitlinesL : List Char → List (List Char)
  | [] => []
  | s => splitlinesGo [] s

/-- Numeric value of a digit string (most significant first). -/
def digitsToNat (ds : List Char) : ℕ :=
  ds.foldl (fun a c => 10 * a + (c.toNat - '0'.toNat)) 0

/-! ## Decimal rendering and rounding

Python's `round(x, n)` and `f"{x:.2f}"` round half to even; they are modelled
here on the exact rational value. -/

/-- Round a rational to the nearest integer, halves to even
(Python's rounding mode). -/
def roundHalfEven (q : ℚ) : ℤ :=
  let n := qFloor q
  let r := qSub q (Rat.divInt n 1)
  if r < mkRat 1 2 then n
  else if mkRat 1 2 < r then n + 1
  else if n % 2 = 0 then n else n + 1

/-- Python `round(x, 6)` on the exact rational value. -/
def round6 (q : ℚ) : ℚ :=
  Rat.divInt (roundHalfEven (qMul q 1000000)) 1000000

/-- Decimal digits of a natural number. -/
def natDigits (n : ℕ) : List Char := Nat.toDigits 10 n

/-- Python `f"{x:.2f}"` on the exact rational value. -/
def format2 (q : ℚ) : List Char :=
  let n := roundHalfEven (qMul q 100)
  let sign : List Char := if n < 0 then ['-'] else []
  let a := n.natAbs
  let frac := a % 100
  sign ++ natDigits (a / 100) ++ ['.'] ++
    (if frac < 10 then '0' :: natDigits frac else natDigits frac)

/-! ## Tokens and stable sorting

A `Token` models one pdfplumber word: its text and the `x0`/`top` coordinates
used by the adapters.  Python's `sorted` is stable; `sortByTop`/`sortByX0`
implement a stable insertion sort (each element is inserted after all
already-placed elements with a key less than or equal to its own). -/

structure Token where
  text : List Char
  x0 : ℚ
  top : ℚ
deriving DecidableEq

def insTop (w : Token) : List Token → List Token
  | [] => [w]
  | v :: vs => if v.top ≤ w.top then v :: insTop w vs else w :: v :: vs

/-- Python `sorted(words, key=lambda w: w["top"])` (stable). -/
def sortByTop (l : List Token) : List Token :=
  l.foldl (fun acc w => insTop w acc) []

def insX0 (w : Token) : List Token → List Token
  | [] => [w]
  | v :: vs => if v.x0 ≤ w.x0 then v :: insX0 w vs else w :: v :: vs

/-- Python `sorted(fila, key=lambda w: w["x0"])` (stable). -/
def sortByX0 (l : List Token) : List Token :=
  l.foldl (fun acc w => insX0 w acc) []

/-! ## Row groupers

`agruparFilasGo` is the loop body of `varona.agrupar_filas`; note the
Python idiom `y_ref = y_ref or w["top"]`, which re-assigns the reference
whenever the stored reference is *falsy* — that is, `None` or `0.0`.
`agruparPorFilasGo` is the loop body of `gpautomocion._agrupar_por_filas`,
which instead assigns the reference only when it is `None`, and sorts each
closed row left-to-right. -/

def agruparFilasGo (tol : ℚ) (yref : Option ℚ) (fila : List Token) :
    List Token → List (List Token)
  | [] => if fila.isEmpty then [] else [fila]
  | w :: ws =>
    match yref with
    | none => agruparFilasGo tol (some w.top) (fila ++ [w]) ws
    | some y =>
      if qAbs (qSub w.top y) ≤ tol then
        agruparFilasGo tol (if y = 0 then some w.top else some y) (fila ++ [w]) ws
      else
        fila :: agruparFilasGo tol (some w.top) [w] ws

/-- `varona.agrupar_filas(words, tol=1.0)`. -/
def agruparFilas (tol : ℚ) (words : List Token) : List (List Token) :=
  agruparFilasGo tol none [] (sortByTop words)

def agruparPorFilasGo (tol : ℚ) (yref : Option ℚ) (fila : List Token) :
    List Token → List (List Token)
  | [] => if fila.isEmpty then [] else [sortByX0 fila]
  | w :: ws =>
    match yref with
    | none => agruparPorFilasGo tol (some w.top) (fila ++ [w]) ws
    | some y =>
      if qAbs (qSub w.top y) ≤ tol then
        agruparPorFilasGo tol (some y) (fila ++ [w]) ws
      else
        sortByX0 fila :: agruparPorFilasGo tol (some w.top) [w] ws

/-- `gpautomocion._agrupar_por_filas(words, tol=1.2)`. -/
def agruparPorFilas (tol : ℚ) (words : List Token) : List (List Token) :=
  agruparPorFilasGo tol none [] (sortByTop words)

/-- Modelled from the spec: the row-grouping algorithm exactly as §4.2 states
it — sort tokens by vertical position; the very first token of a row fixes
the reference y, which is never recomputed; accumulate while
`|token.y_top - row_reference_y| <= tolerance`; on exceeding the tolerance,
close the row sorted left-to-right by horizontal start. -/
def groupRowsSpecGo (tol yref : ℚ) (fila : List Token) :
    List Token → List (List Token)
  | [] => [sortByX0 fila]
  | w :: ws =>
    if qAbs (qSub w.top yref) ≤ tol then
      groupRowsSpecGo tol yref (fila ++ [w]) ws
    else
      sortByX0 fila :: groupRowsSpecGo tol w.top [w] ws

/-- Modelled from the spec: top-level of the §4.2 grouping algorithm. -/
def groupRowsSpec (tol : ℚ) (words : List Token) : List (List Token) :=
  match sortByTop words with
  | [] => []
  | w :: ws => groupRowsSpecGo tol w.top [w] ws

/-! ## Regex-shaped token matchers

Each definition implements exactly one regular expression of the source. -/

/-- Full match of `gpautomocion`'s code pattern
`[0-9A-Za-z]{3}-[0-9A-Za-z\-]+`. -/
def gpCodeFull (t : List Char) : Bool :=
  match t with
  | a :: b :: c :: '-' :: rest =>
    isAlnumC a && isAlnumC b && isAlnumC c && !rest.isEmpty &&
      rest.all (fun ch => isAlnumC ch || ch = '-')
  | _ => false

/-- Full match of `NUM_RE_2_4 = -?\d+[.,]\d{2,4}` (gpautomocion). -/
def numRe24Full (t : List Char) : Bool :=
  let body := match t with
    | '-' :: r => r
    | r => r
  let ds := body.takeWhile isDigitC
  let rest := body.dropWhile isDigitC
  !ds.isEmpty &&
    (match rest with
     | c :: r2 =>
       (c = '.' || c = ',') &&
         (r2.all isDigitC && 2 ≤ r2.length && r2.length ≤ 4)
     | [] => false)

/-- Prefix match of `NUM_RE = -?\d+,\d{2}` (varona); returns the matched
prefix (`m.group(0)` of `NUM_RE.match`), or `none`. -/
def numReMatch (t : List Char) : Option (List Char) :=
  let sign : List Char := match t with
    | '-' :: _ => ['-']
    | _ => []
  let body := match t with
    | '-' :: r => r
    | r => r
  let ds := body.takeWhile isDigitC
  let rest := body.dropWhile isDigitC
  if ds.isEmpty then none
  else
    match rest with
    | ',' :: d1 :: d2 :: _ =>
      if isDigitC d1 && isDigitC d2 then some (sign ++ ds ++ [',', d1, d2])
      else none
    | _ => none

/-- Full match of `NUM_RE = -?\d+,\d{2}` (varona). -/
def numReFull (t : List Char) : Bool := numReMatch t = some t

/-- Full match of `[0-9A-Z]{5,}` (varona's code pattern). -/
def varonaCodeFull (t : List Char) : Bool :=
  5 ≤ t.length && t.all (fun c => isDigitC c || isAsciiUpperC c)

/-- `gpautomocion._es_ref`: full match of `[A-Z0-9]{5,}` that contains both a
letter and a digit. -/
def esRef (t : List Char) : Bool :=
  varonaCodeFull t && t.any isAsciiAlphaC && t.any isDigitC

/-- Rational value of a string matched by `-?\d+,\d{2}` or `-?\d+[.,]\d{2,4}`
(Python `float(s.replace(",", "."))` on such a match). -/
def ratOfDecTxt (t : List Char) : ℚ :=
  let neg := match t with
    | '-' :: _ => true
    | _ => false
  let body := match t with
    | '-' :: r => r
    | r => r
  let ds := body.takeWhile isDigitC
  let fs := (body.dropWhile isDigitC).drop 1
  let k := fs.length
  let mag : ℤ := (digitsToNat ds) * 10 ^ k + digitsToNat fs
  Rat.divInt (if neg then -mag else mag) (10 ^ k)

/-! ## `core/normalize.py` -/

/-- Grammar of Python `float(s)` for ordinary decimal strings: optional sign,
then either `digits [. digits]` or `. digits`, then an optional exponent.
(The exotic inputs `float` also accepts — `inf`, `nan`, underscore
separators — are not modelled; no input considered here contains them.) -/
def pyFloat (s : List Char) : Option ℚ :=
  let (sgn, r1) : ℤ × List Char :=
    match s with
    | '+' :: r => (1, r)
    | '-' :: r => (-1, r)
    | r => (1, r)
  let ds := r1.takeWhile isDigitC
  let r2 := r1.dropWhile isDigitC
  let (ok, intDs, fracDs, r3) : Bool × List Char × List Char × List Char :=
    match r2 with
    | '.' :: rf =>
      let fs := rf.takeWhile isDigitC
      let r3 := rf.dropWhile isDigitC
      (!(ds.isEmpty && fs.isEmpty), ds, fs, r3)
    | _ => (!ds.isEmpty, ds, [], r2)
  if !ok then none
  else
    let (eok, e, r4) : Bool × ℤ × List Char :=
      match r3 with
      | 'e' :: rest | 'E' :: rest =>
        let (esgn, r5) : ℤ × List Char :=
          match rest with
          | '+' :: r => (1, r)
          | '-' :: r => (-1, r)
          | r => (1, r)
        let eds := r5.takeWhile isDigitC
        let r6 := r5.dropWhile isDigitC
        (!eds.isEmpty, esgn * digitsToNat eds, r6)
      | _ => (true, 0, r3)
    if !eok || !r4.isEmpty then none
    else
      let k := fracDs.length
      let mag : ℤ := (digitsToNat intDs) * 10 ^ k + digitsToNat fracDs
      let num : ℤ := sgn * mag * 10 ^ (max e 0).toNat
      let den : ℤ := (10 : ℤ) ^ k * 10 ^ (max (-e) 0).toNat
      some (Rat.divInt num den)

/-- The string transformation inside `normalize.parse_decimal`:
`s.strip().replace(".", "").replace(",", ".")`. -/
def parseDecimalNorm (s : List Char) : List Char :=
  ((pyStrip s).filter (fun c => c ≠ '.')).map (fun c => if c = ',' then '.' else c)

/-- `normalize.parse_decimal(s, default)` for a non-`None` string argument:
normalize the string, then `float(...)`, returning `default` when the
conversion raises `ValueError`. -/
def parse_decimal (s : List Char) (default : ℚ) : ℚ :=
  (pyFloat (parseDecimalNorm s)).getD default

/-! ## `core/odoo_importer.py`: cascading discount chain -/

/-- The numeric fold inside `odoo_importer._parse_discounts_chain`: multiply
the retained fractions `1 - d/100` of all parsed tokens, then return the
effective percentage `(1 - eff_factor) * 100` rounded to 6 decimals. -/
def combineDiscounts (ds : List ℚ) : ℚ :=
  let effFactor := ds.foldl (fun acc d => qMul acc (qSub 1 (qDiv d 100))) 1
  round6 (qMul (qSub 1 effFactor) 100)

/-- One attempted match of `[-+]?\d+[.,]?\d*` at the start of `s`; on success
returns the token's float value and the remaining input.  A successful match
consumes at least one character. -/
def matchDiscountTok (s : List Char) : Option (ℚ × List Char) :=
  let (sgn, r1) : ℤ × List Char :=
    match s with
    | '+' :: r => (1, r)
    | '-' :: r => (-1, r)
    | r => (1, r)
  let ds := r1.takeWhile isDigitC
  if ds.isEmpty then none
  else
    let r2 := r1.dropWhile isDigitC
    let (fs, r3) : List Char × List Char :=
      match r2 with
      | '.' :: rf => (rf.takeWhile isDigitC, rf.dropWhile isDigitC)
      | ',' :: rf => (rf.takeWhile isDigitC, rf.dropWhile isDigitC)
      | _ => ([], r2)
    let k := fs.length
    let mag : ℤ := (digitsToNat ds) * 10 ^ k + digitsToNat fs
    some (Rat.divInt (sgn * mag) (10 ^ k), r3)

/-- Token extraction of `_parse_discounts_chain`: all matches of
`[-+]?\d+[.,]?\d*` in the `%`-blanked string, left to right, non-overlapping
(`re.findall` scanning: on failure advance one character, on success continue
after the match).  Each token always parses as a float, so the values are
produced directly.  The fuel argument only drives structural recursion; every
step consumes at least one character, so `length + 1` fuel always suffices. -/
def discountTokensGo (fuel : ℕ) (s : List Char) : List ℚ :=
  match fuel, s with
  | 0, _ => []
  | _, [] => []
  | fuel + 1, c :: rest =>
    match matchDiscountTok (c :: rest) with
    | some (q, r3) => q :: discountTokensGo fuel r3
    | none => discountTokensGo fuel rest

def discountTokens (s : List Char) : List ℚ :=
  discountTokensGo (s.length + 1) s

/-- `_parse_discounts_chain(val)` for a string argument: empty (after strip)
yields `0.0`; otherwise extract the numeric tokens of the `%`-blanked string
and fold them with the compounding formula. -/
def parseDiscountsChain (s : List Char) : ℚ :=
  let t := pyStrip s
  if t.isEmpty then 0
  else combineDiscounts (discountTokens (t.map (fun c => if c = '%' then ' ' else c)))

/-! ## Output table model

A pandas `DataFrame` row is modelled as an association list from column name
to cell string; `finalizeRow head r` models the source's final
`for col in HEAD: if col not in df.columns: df[col] = ""` loop followed by
`df = df[HEAD]` — every output row holds exactly the header's columns, in
header order, with the empty string for any column the row does not carry. -/

structure TableT where
  header : List (List Char)
  rows : List (List (List Char))
deriving DecidableEq

def lookupCell (c : List Char) : List (List Char × List Char) → Option (List Char)
  | [] => none
  | (k, v) :: rest => if k = c then some v else lookupCell c rest

def finalizeRow (head : List (List Char)) (r : List (List Char × List Char)) :
    List (List Char) :=
  head.map (fun c => (lookupCell c r).getD [])

/-- The declared output header (`HEAD` in `gpautomocion.py`, identical in
`varona.py` and `michelin.py`). -/
def HEAD : List (List Char) :=
  ["Proveedor".data,
   "Referencia de proveedor".data,
   "Líneas del pedido/Producto".data,
   "Líneas del pedido/Descripción".data,
   "Líneas del pedido/Cantidad".data,
   "Líneas del pedido/Precio unitario".data,
   "Líneas del pedido/(%) Descuento".data,
   "Entregar a".data]

def colProveedor : List Char := "Proveedor".data
def colReferencia : List Char := "Referencia de proveedor".data
def colProducto : List Char := "Líneas del pedido/Producto".data
def colDescripcion : List Char := "Líneas del pedido/Descripción".data
def colCantidad : List Char := "Líneas del pedido/Cantidad".data
def colPrecio : List Char := "Líneas del pedido/Precio unitario".data
def colDescuento : List Char := "Líneas del pedido/(%) Descuento".data
def colEntregarA : List Char := "Entregar a".data

/-- The error message raised by `gpautomocion.parse` and `varona.parse` when
no article lines are found. -/
def noLineasMsg : List Char := "⚠️  No se encontraron líneas de artículo.".data

/-! ## `adapters/gpautomocion.py` (Grupo Peña / Vendor A) -/

def GP_PROVEEDOR : List Char := "GRUPO PEÑA AUTOMOCION, S.L.".data

/-- `_ref_albaran` step 1: for each token starting (case-insensitively) with
`albar`, scan the window of 5 tokens either side for an `_es_ref` match. -/
def gpRefNear (texts : List (List Char)) : Option (List Char) :=
  let idxs := (List.range texts.length).filter
    (fun i => startsWithL "albar".data (pyLowerL (texts.getD i [])))
  idxs.findSome? (fun i =>
    let lo := i - 5
    let hi := min texts.length (i + 6)
    ((List.range' lo (hi - lo)).find? (fun j => esRef (texts.getD j []))).map
      (fun j => texts.getD j []))

/-- Python `s.strip("*")`. -/
def stripStars (s : List Char) : List Char :=
  ((s.dropWhile (fun c => c = '*')).reverse.dropWhile (fun c => c = '*')).reverse

/-- The trailing run of `[A-Z0-9]` characters of `s` — the group captured by
`re.search(r"([A-Z0-9]{5,})$", s)` when it is at least 5 long. -/
def trailRefRun (s : List Char) : List Char :=
  (s.reverse.takeWhile (fun c => isDigitC c || isAsciiUpperC c)).reverse

/-- `_ref_albaran` step 2 (fallback): tokens containing `*`, stripped of
asterisks, whose trailing `[A-Z0-9]{5,}` run is an `_es_ref` match; leading
digits are then removed (`re.sub(r"^\d+", "", ...)`). -/
def gpRefStar (texts : List (List Char)) : Option (List Char) :=
  texts.findSome? (fun t =>
    if t.contains '*' then
      let s := stripStars t
      let run := trailRefRun s
      if 5 ≤ run.length && esRef run then some (run.dropWhile isDigitC) else none
    else none)

/-- `gpautomocion._ref_albaran(words)`. -/
def gpRefAlbaran (words : List Token) : List Char :=
  let texts := words.map Token.text
  match gpRefNear texts with
  | some r => r
  | none =>
    match gpRefStar texts with
    | some r => r
    | none => []

/-- `gpautomocion._detectar_destino(texto)`. -/
def detectarDestino (texto : List Char) : List Char :=
  let t := texto.map (fun c => if c = '\n' then ' ' else c)
  if containsSub t "Ctra. Aeropuerto, Km. 4".data then "Central".data
  else if containsSub t "Calle Ingeniero Ribera".data then "Amargacena".data
  else if containsSub t "MIRALBAIDA".data then "Miralbaida".data
  else []

/-- `gpautomocion._contiene_aportacion(texto)`: accent-normalize, lowercase,
then look for the surcharge trigger phrase. -/
def contieneAportacion (texto : List Char) : Bool :=
  containsSub (pyLowerL (stripAccentsL texto)) "aportacion al servicio de reparto".data

/-- Python `max(tokens, key=lambda w: w["x0"])` (first maximal element). -/
def maxByX0 : List Token → Option Token
  | [] => none
  | w :: ws => some (ws.foldl (fun acc v => if acc.x0 < v.x0 then v else acc) w)

/-- One detected Grupo Peña order line. -/
structure GPLine where
  cod : List Char
  desc : List Char
  qty : List Char
  price : List Char
deriving DecidableEq

/-- The body of `_parsear_lineas`'s loop for one grouped row: find the code
token, the description band, the quantity token and a price, or skip the row
(`continue`) by returning `none`. -/
def gpParseRow (fila : List Token) : Option GPLine :=
  match fila.find? (fun w =>
      decide (30 ≤ w.x0) && decide (w.x0 ≤ 120) && gpCodeFull w.text) with
  | none => none
  | some codeTok =>
    let desc := pyStrip (joinSpace
      ((fila.filter (fun w => decide (130 ≤ w.x0) && decide (w.x0 < 300))).map Token.text))
    match fila.find? (fun w =>
        decide (300 ≤ w.x0) && decide (w.x0 ≤ 360) && numRe24Full w.text) with
    | none => none
    | some qtyTok =>
      let qty := commaToDot qtyTok.text
      let priceOpt : Option (List Char) :=
        match fila.find? (fun w =>
            decide (470 ≤ w.x0) && decide (w.x0 ≤ 510) &&
              (numRe24Full w.text || w.text = ['-'])) with
        | some p => some (if p.text = ['-'] then ['0'] else commaToDot p.text)
        | none =>
          match maxByX0 (fila.filter (fun w => numRe24Full w.text)) with
          | some best => some (commaToDot best.text)
          | none =>
            if fila.any (fun w =>
                decide (470 ≤ w.x0) && decide (w.x0 ≤ 510) && w.text = ['-']) then
              some ['0']
            else none
      match priceOpt with
      | none => none
      | some price =>
        let raw := codeTok.text
        let cod := if raw.contains '-' then (raw.dropWhile (fun c => c ≠ '-')).drop 1
                   else raw
        some ⟨cod, desc, qty, price⟩

def gpParsearLineasGo : List (List Token) → List GPLine
  | [] => []
  | fila :: rest =>
    match gpParseRow fila with
    | some l => l :: gpParsearLineasGo rest
    | none => gpParsearLineasGo rest

/-- `gpautomocion._parsear_lineas(words)` (row grouping at the default
tolerance 1.2, then the per-row matcher). -/
def gpParsearLineas (words : List Token) : List GPLine :=
  gpParsearLineasGo (agruparPorFilas (mkRat 12 10) words)

/-- `GrupoPenaAdapter.detect(txt, filename)`. -/
def gpDetect (txt fn : List Char) : Bool :=
  let fnU := pyUpperL fn
  if startsWithL "GPA_".data fnU || containsSub fnU "GPA-".data then true
  else
    let t := pyUpperL (stripAccentsL txt)
    containsSub t "GRUPO PENA".data || containsSub t "GP AUTOMOCION".data ||
      containsSub (pyUpperL txt) "GRUPO PEÑA".data ||
      containsSub (pyUpperL txt) "GP AUTOMOCIÓN".data

/-- The association-list row built for one parsed Grupo Peña line. -/
def gpLineRow (r : GPLine) : List (List Char × List Char) :=
  [(colProducto, '[' :: (r.cod ++ (']' :: ' ' :: r.desc))),
   (colDescripcion, r.desc),
   (colCantidad, r.qty),
   (colPrecio, r.price),
   (colDescuento, "0.00".data)]

/-- The synthetic `APORTACION AL SERVICIO DE REPARTO` row of `gpautomocion`
(quantity `"1"`, price `"2.67"`). -/
def gpAportacionRow : List (List Char × List Char) :=
  [(colProducto, "APORTACION AL SERVICIO DE REPARTO".data),
   (colDescripcion, "APORTACION AL SERVICIO DE REPARTO".data),
   (colCantidad, "1".data),
   (colPrecio, "2.67".data),
   (colDescuento, "0.00".data)]

/-- `GrupoPenaAdapter.parse`, starting from the extracted word tokens (the
pdfplumber read itself is an external effect).  Raising `ValueError` is
modelled as `Except.error`. -/
def gpParse (words : List Token) : Except (List Char) TableT :=
  let texto := joinSpace (words.map Token.text)
  let ref := gpRefAlbaran words
  let destino := detectarDestino texto
  let filas := gpParsearLineas words
  if filas.isEmpty then Except.error noLineasMsg
  else
    let base := filas.map gpLineRow
    let withExtra := if contieneAportacion texto then base ++ [gpAportacionRow] else base
    let full := withExtra.map (fun r =>
      r ++ [(colProveedor, GP_PROVEEDOR), (colReferencia, ref), (colEntregarA, destino)])
    Except.ok ⟨HEAD, full.map (finalizeRow HEAD)⟩

instance {ε α : Type} [DecidableEq ε] [DecidableEq α] : DecidableEq (Except ε α) := fun a b =>
  match a, b with
  | Except.ok x, Except.ok y =>
    if h : x = y then isTrue (by rw [h]) else isFalse (by intro hc; cases hc; exact h rfl)
  | Except.error x, Except.error y =>
    if h : x = y then isTrue (by rw [h]) else isFalse (by intro hc; cases hc; exact h rfl)
  | Except.ok _, Except.error _ => isFalse (by intro hc; cases hc)
  | Except.error _, Except.ok _ => isFalse (by intro hc; cases hc)

/-! ## `adapters/varona.py` (Vendor C) -/

def VARONA_PROVEEDOR : List Char := "VARONA 2008, S.L.".data

def ALMACEN_MAP : List (List Char × List Char) :=
  [("CENTRAL".data, "Central".data),
   ("MIRALBAIDA".data, "Miralbaida".data),
   ("AMARGACENA".data, "Amargacena".data)]

/-- One entry of varona's `nums` list: the matched numeric prefix, the
token's `x0`, and the token itself. -/
structure NumEntry where
  val : List Char
  x : ℚ
  tok : Token
deriving DecidableEq

/-- Python `max(entries, key=lambda n: n["x"])` (first maximal element). -/
def maxNumByX : List NumEntry → Option NumEntry
  | [] => none
  | n :: ns => some (ns.foldl (fun acc v => if acc.x < v.x then v else acc) n)

/-- varona's `nums` construction: tokens whose text has a `NUM_RE` prefix
match, with the matched text and the token's `x0`. -/
def varonaNums (fila : List Token) : List NumEntry :=
  fila.filterMap (fun w => (numReMatch w.text).map (fun v => ⟨v, w.x0, w⟩))

/-- The discount candidates of one row: values of `nums` entries in the
x-band `[450, 520]` that are at most `100` (the source's `try/except` around
`float` never fires, because every `val` matched `NUM_RE`). -/
def varonaDtoVals (nums : List NumEntry) : List ℚ :=
  (nums.filter (fun n => decide (450 ≤ n.x) && decide (n.x ≤ 520))).filterMap
    (fun n => let v := ratOfDecTxt n.val; if v ≤ 100 then some v else none)

/-- The discount field from the candidate list: `0.00` for none, the value
for one, the compound of the last two for two or more (varona's
`dto` computation). -/
def varonaDtoStr (vals : List ℚ) : List Char :=
  match vals.reverse with
  | [] => "0.00".data
  | [v] => format2 v
  | d2 :: d1 :: _ =>
    format2 (qMul 100 (qSub 1 (qMul (qSub 1 (qDiv d1 100)) (qSub 1 (qDiv d2 100)))))

/-- `varona._join_hyphen_number_if_adjacent(row_words, number_token)`. -/
def joinHyphen (row : List Token) (numTok : Token) : List Char :=
  let candidates := row.filter (fun w =>
    w.text = ['-'] && decide (0 < qSub numTok.x0 w.x0) && decide (qSub numTok.x0 w.x0 ≤ 10))
  if !candidates.isEmpty then '-' :: numTok.text else numTok.text

/-- Full match of the capture group `\d+,\d{2}` (no sign), anchored to the
end of the string. -/
def digitCommaFull (s : List Char) : Bool :=
  let ds := s.takeWhile isDigitC
  !ds.isEmpty &&
    (match s.dropWhile isDigitC with
     | [',', d1, d2] => isDigitC d1 && isDigitC d2
     | _ => false)

/-- Group 2 of `re.match(r"^(.*?)-(\d+,\d{2})$", t)`: the digits after the
first `-` whose suffix is exactly `\d+,\d{2}`. -/
def trailingNegG2 : List Char → Option (List Char)
  | [] => none
  | c :: rest =>
    if c = '-' && digitCommaFull rest then some rest else trailingNegG2 rest

/-- `re.sub(r"-\d+,\d{2}$", "", t)`: drop the trailing `-\d+,\d{2}` suffix
if present. -/
def stripTrailNeg : List Char → List Char
  | [] => []
  | c :: rest =>
    if c = '-' && digitCommaFull rest then [] else c :: stripTrailNeg rest

/-- One detected Varona order line. -/
structure VLine where
  cod : List Char
  desc : List Char
  qty : List Char
  price : List Char
  dto : List Char
deriving DecidableEq

/-- The body of `varona.parsear`'s loop for one grouped row. -/
def varonaParseRow (fila0 : List Token) : Option VLine :=
  let fila := sortByX0 fila0
  match fila.findIdx? (fun w =>
      decide (30 ≤ w.x0) && decide (w.x0 ≤ 80) && varonaCodeFull w.text) with
  | none => none
  | some codeI =>
    let nums := varonaNums fila
    if nums.isEmpty then none
    else
      let candPrice := nums.filter (fun n => decide (300 ≤ n.x) && decide (n.x ≤ 450))
      match (if candPrice.isEmpty then maxNumByX nums else maxNumByX candPrice) with
      | none => none
      | some priceTok =>
        let price := commaToDot priceTok.val
        let leftX := (fila.getD codeI ⟨[], 0, 0⟩).x0
        let rightX := priceTok.x
        let qtyCandidate :=
          match nums.find? (fun n => decide (100 ≤ n.x) && decide (n.x ≤ 300)) with
          | some n => some n
          | none => nums.find? (fun n => decide (leftX < n.x) && decide (n.x < rightX))
        let tokensBetween := (fila.drop (codeI + 1)).filter (fun w => decide (w.x0 < rightX))
        let trailingNeg := tokensBetween.foldl
          (fun acc w => match trailingNegG2 w.text with
            | some g => some g
            | none => acc) none
        let qtyTxt :=
          match qtyCandidate with
          | some n => joinHyphen fila n.tok
          | none =>
            match trailingNeg with
            | some g2 => '-' :: g2
            | none => "1,00".data
        let qty := commaToDot qtyTxt
        let dto := varonaDtoStr (varonaDtoVals nums)
        let descParts := tokensBetween.filterMap (fun w =>
          if w.text = ['-'] || numReFull w.text then none
          else
            let t := stripTrailNeg w.text
            if t.isEmpty then none else some t)
        let desc := pyStrip (joinSpace descParts)
        let raw := (fila.getD codeI ⟨[], 0, 0⟩).text
        let cod := if 3 < raw.length then raw.drop 3 else raw
        some ⟨cod, desc, qty, price, dto⟩

def varonaParsearGo : List (List Token) → List VLine
  | [] => []
  | fila :: rest =>
    match varonaParseRow fila with
    | some l => l :: varonaParsearGo rest
    | none => varonaParsearGo rest

/-- `varona.parsear(words)` (row grouping at the default tolerance 1.0,
then the per-row matcher). -/
def varonaParsear (words : List Token) : List VLine :=
  varonaParsearGo (agruparFilas 1 words)

/-- Scanner for `re.search(r"VA02\s+(\d{2}\.\d{3})", txt)`: returns the five
captured digits. -/
def vRefGo (fuel : ℕ) (s : List Char) : Option (List Char) :=
  match fuel, s with
  | 0, _ => none
  | _, [] => none
  | fuel + 1, c :: rest =>
    let attempt : Option (List Char) :=
      if startsWithL "VA02".data (c :: rest) then
        let after := (c :: rest).drop 4
        let ws := after.takeWhile isSpaceC
        let r := after.dropWhile isSpaceC
        if ws.isEmpty then none
        else
          match r with
          | a :: b :: '.' :: x :: y :: z :: _ =>
            if isDigitC a && isDigitC b && isDigitC x && isDigitC y && isDigitC z then
              some [a, b, x, y, z]
            else none
          | _ => none
      else none
    match attempt with
    | some g => some g
    | none => vRefGo fuel rest

/-- `varona.ref_albaran(txt)`: `"VA02" + group.replace(".", "")`. -/
def refAlbaranVA (txt : List Char) : List Char :=
  match vRefGo (txt.length + 1) txt with
  | some g => "VA02".data ++ g
  | none => []

/-- `varona.detectar_almacen(txt)`: specific address wins first; otherwise the
last line whose stripped upper-case form starts with a warehouse key; otherwise
the first key contained anywhere in the upper-cased text. -/
def detectarAlmacen (txt : List Char) : List Char :=
  if containsSub txt "Ctra. Aeropuerto, Km. 4".data then "Central".data
  else
    let destino := (splitlinesL txt).foldl
      (fun d linea =>
        let up := pyUpperL (pyStrip linea)
        ALMACEN_MAP.foldl (fun d2 kv => if startsWithL kv.1 up then kv.2 else d2) d)
      []
    if !destino.isEmpty then destino
    else
      let up := pyUpperL txt
      match ALMACEN_MAP.find? (fun kv => containsSub up kv.1) with
      | some kv => kv.2
      | none => []

/-- `Varona.detect(txt, filename)`: provider text signature or a
`VA0\d+` pattern in the upper-cased filename. -/
def varonaDetect (txt fn : List Char) : Bool :=
  let rec hasVA0 : List Char → Bool
    | [] => false
    | c :: rest =>
      (startsWithL "VA0".data (c :: rest) &&
        (match (c :: rest).drop 3 with
         | d :: _ => isDigitC d
         | [] => false)) || hasVA0 rest
  containsSub txt "VARONA 2008".data || hasVA0 (pyUpperL fn)

/-- The association-list row built for one parsed Varona line. -/
def vLineRow (r : VLine) : List (List Char × List Char) :=
  [(colProducto, '[' :: (r.cod ++ (']' :: ' ' :: r.desc))),
   (colDescripcion, r.desc),
   (colCantidad, r.qty),
   (colPrecio, r.price),
   (colDescuento, r.dto)]

/-- The synthetic `APORTACION AL SERVICIO DE REPARTO` row of `varona`
(quantity `"1.00"`, price `"2.67"`). -/
def vAportacionRow : List (List Char × List Char) :=
  [(colProducto, "APORTACION AL SERVICIO DE REPARTO".data),
   (colDescripcion, "APORTACION AL SERVICIO DE REPARTO".data),
   (colCantidad, "1.00".data),
   (colPrecio, "2.67".data),
   (colDescuento, "0.00".data)]

/-- `Varona.parse`, starting from the extracted word tokens.  `texto` is the
newline-join of the token texts; Python's `str.casefold()` coincides with
lower-casing for the characters involved. -/
def varonaParse (words : List Token) : Except (List Char) TableT :=
  let texto := List.intercalate ['\n'] (words.map Token.text)
  let filas := varonaParsear words
  if filas.isEmpty then Except.error noLineasMsg
  else
    let base := filas.map vLineRow
    let t := pyLowerL texto
    let withExtra :=
      if containsSub t "aportación al servicio de reparto".data ||
          containsSub t "aportacion al servicio de reparto".data then
        base ++ [vAportacionRow]
      else base
    let partnerRef := refAlbaranVA texto
    let almacen := detectarAlmacen texto
    let full := withExtra.map (fun r =>
      r ++ [(colProveedor, VARONA_PROVEEDOR), (colReferencia, partnerRef),
            (colEntregarA, almacen)])
    Except.ok ⟨HEAD, full.map (finalizeRow HEAD)⟩

/-! ## `adapters/michelin.py` (Vendor B)

`Michelin.parse` reads the whole-document text (via `core.pdf.extract_text`,
an external I/O step) and optionally a CAI→quantity map recovered from
page geometry by `_quantities_with_pdfplumber` (which walks pdfplumber
`page.chars`, again external I/O); the embedding therefore takes the
extracted text and that map as arguments.  The regex passes over the text are
implemented below as explicit scanners. -/

def MICHELIN_PROVEEDOR : List Char := "MICHELIN ESPAÑA PORTUGAL, S.A.".data

def michelinAlmacenMap : List (List Char × List Char) :=
  [("H0064309".data, "Central".data),
   ("H0064310".data, "Miralbaida".data),
   ("H0123390".data, "Amargacena".data)]

/-- Spanish accented letters (the explicit class
`[ÁÉÍÓÚÜÑáéíóúüñ]` of the source's letter test). -/
def isSpanishAccentC (c : Char) : Bool :=
  match c with
  | 'Á' | 'É' | 'Í' | 'Ó' | 'Ú' | 'Ü' | 'Ñ' => true
  | 'á' | 'é' | 'í' | 'ó' | 'ú' | 'ü' | 'ñ' => true
  | _ => false

/-- Python `\w` (word character) for the characters relevant here. -/
def isWordC (c : Char) : Bool := isAlnumC c || c = '_' || isSpanishAccentC c

/-- Case-insensitive prefix test (Python regexes compiled with
`re.IGNORECASE`). -/
def ciStartsWith (pre s : List Char) : Bool :=
  startsWithL (pyUpperL pre) (pyUpperL (s.take pre.length))

/-- Collapse runs of spaces/tabs to a single space (`re.sub(r"[ \t]+", " ", s)`);
`inRun` records whether the previous character belonged to a run. -/
def collapseSpTabGo (inRun : Bool) : List Char → List Char
  | [] => []
  | c :: rest =>
    if c = ' ' || c = '\t' then
      if inRun then collapseSpTabGo true rest
      else ' ' :: collapseSpTabGo true rest
    else c :: collapseSpTabGo false rest

def collapseSpTab (s : List Char) : List Char := collapseSpTabGo false s

def normWs (s : List Char) : List Char :=
  pyStrip (collapseSpTab (s.map (fun c => if c = '\u00A0' then ' ' else c)))

/-- Match, at one position, the tail of the tyre-size pattern
`\d{3}/\d{2}\s*(?:R|ZR)?\s*\d{2}\b` after the `\d{3}/\d{2}` part. -/
def tyreTail (rest : List Char) : Bool :=
  let r1 := rest.dropWhile isSpaceC
  let after2d : List Char → Bool := fun s =>
    match s with
    | f1 :: f2 :: after =>
      isDigitC f1 && isDigitC f2 &&
        (match after with
         | [] => true
         | a :: _ => !isWordC a)
    | _ => false
  let rBranch :=
    match r1 with
    | c :: r2 => (c = 'R' || c = 'r') && after2d (r2.dropWhile isSpaceC)
    | [] => false
  let zrBranch :=
    match r1 with
    | z :: r :: r2 =>
      (z = 'Z' || z = 'z') && (r = 'R' || r = 'r') && after2d (r2.dropWhile isSpaceC)
    | _ => false
  rBranch || zrBranch || after2d r1

/-- Scanner for `re.search(r"\b\d{3}/\d{2}\s*(?:R|ZR)?\s*\d{2}\b", line)`
(`prev` is the character before the current position, for the leading `\b`). -/
def tyreScan (prev : Option Char) : List Char → Bool
  | [] => false
  | c :: rest =>
    (let boundary := match prev with
      | none => true
      | some p => !isWordC p
     boundary &&
       (match c :: rest with
        | d1 :: d2 :: d3 :: '/' :: e1 :: e2 :: tail =>
          isDigitC d1 && isDigitC d2 && isDigitC d3 && isDigitC e1 && isDigitC e2 &&
            tyreTail tail
        | _ => false)) ||
    tyreScan (some c) rest

/-- Scanner for a whole-word occurrence (`\bWORD\b`); `ci` selects
case-insensitive matching. -/
def wordScan (word : List Char) (ci : Bool) (prev : Option Char) : List Char → Bool
  | [] => false
  | c :: rest =>
    (let boundary := match prev with
      | none => true
      | some p => !isWordC p
     let hitHere :=
       if ci then ciStartsWith word (c :: rest) else startsWithL word (c :: rest)
     boundary && hitHere &&
       (match (c :: rest).drop word.length with
        | [] => true
        | a :: _ => !isWordC a)) ||
    wordScan word ci (some c) rest

/-- `Michelin._looks_like_tyre(line)`. -/
def looksLikeTyre (line : List Char) : Bool :=
  tyreScan none line || wordScan "TL".data false none line ||
    wordScan "PILOT".data true none line || wordScan "ENERGY".data true none line ||
    wordScan "PRIMACY".data true none line || wordScan "ALPIN".data true none line ||
    wordScan "CROSSCLIMATE".data true none line

/-- One Michelin item (`Producto` = CAI code, description and quantity). -/
structure MItem where
  cai : List Char
  desc : List Char
  qty : List Char
deriving DecidableEq

/-- Character class `[A-Z0-9\-\./_]` under `re.IGNORECASE`. -/
def isCaiClassC (c : Char) : Bool :=
  isAsciiUpperC c || isAsciiLowerC c || isDigitC c || c = '-' || c = '.' || c = '/' || c = '_'

/-- Match `\s*CAI\s*:\s*([A-Z0-9\-\./_]+)` at the start of `s` (the tail of
pass A's pattern after the lazy description group); returns the captured code
and the input after the match. -/
def matchCaiTail (s : List Char) : Option (List Char × List Char) :=
  let r := s.dropWhile isSpaceC
  if ciStartsWith "CAI".data r then
    let r2 := (r.drop 3).dropWhile isSpaceC
    match r2 with
    | ':' :: r3 =>
      let r4 := r3.dropWhile isSpaceC
      let code := r4.takeWhile isCaiClassC
      if code.isEmpty then none else some (code, r4.drop code.length)
    | _ => none
  else none

/-- The lazy `(?P<desc>.+?)` of pass A: consume characters one at a time
(at least one), testing after each whether the `CAI` tail matches. -/
def descCaiScan (fuel : ℕ) (accRev : List Char) (s : List Char) :
    Option (List Char × List Char × List Char) :=
  match fuel with
  | 0 => none
  | fuel + 1 =>
    match (if accRev.isEmpty then none else matchCaiTail s) with
    | some (cai, after) => some (accRev.reverse, cai, after)
    | none =>
      match s with
      | [] => none
      | c :: rest => descCaiScan fuel (c :: accRev) rest

/-- Attempt pass A's pattern
`CANTIDAD\s*\n\s*(?P<qty>\d+(?:[.,]\d+)?)\s*\n\s*(?P<desc>.+?)\s*CAI\s*:\s*(?P<cai>...)`
at the start of `s` (`re.IGNORECASE | re.DOTALL`).  `\s*\n\s*` consumes the
maximal whitespace run, which must contain a newline. -/
def matchPassAAt (s : List Char) : Option (MItem × List Char) :=
  if ciStartsWith "CANTIDAD".data s then
    let r0 := s.drop 8
    let ws1 := r0.takeWhile isSpaceC
    if !ws1.contains '\n' then none
    else
      let r1 := r0.dropWhile isSpaceC
      let ds := r1.takeWhile isDigitC
      if ds.isEmpty then none
      else
        let r2 := r1.dropWhile isDigitC
        let (qty, r3) : List Char × List Char :=
          match r2 with
          | c2 :: rf =>
            if c2 = '.' || c2 = ',' then
              let fs := rf.takeWhile isDigitC
              if fs.isEmpty then (ds, r2)
              else (ds ++ c2 :: fs, rf.dropWhile isDigitC)
            else (ds, r2)
          | [] => (ds, r2)
        let ws2 := r3.takeWhile isSpaceC
        if !ws2.contains '\n' then none
        else
          let r4 := r3.dropWhile isSpaceC
          match descCaiScan (r4.length + 1) [] r4 with
          | some (desc, cai, after) =>
            some (⟨pyStrip cai, normWs ((splitlinesL desc).getD 0 []), pyStrip qty⟩, after)
          | none => none
  else none

/-- Pass A of `_extract_items_from_text`: `pat1.finditer` — scan left to
right, on failure advance one character, on success continue after the
match. -/
def passAGo (fuel : ℕ) (s : List Char) : List MItem :=
  match fuel, s with
  | 0, _ => []
  | _, [] => []
  | fuel + 1, c :: rest =>
    match matchPassAAt (c :: rest) with
    | some (item, after) => item :: passAGo fuel after
    | none => passAGo fuel rest

/-- Match `CAI\s*:\s*([A-Z0-9\-\./_]+)` at the start of `s`; returns the
captured code and the number of characters consumed. -/
def matchCaiAt (s : List Char) : Option (List Char × ℕ) :=
  if ciStartsWith "CAI".data s then
    let r := s.drop 3
    let w1 := r.takeWhile isSpaceC
    match r.dropWhile isSpaceC with
    | ':' :: r2 =>
      let w2 := r2.takeWhile isSpaceC
      let r3 := r2.dropWhile isSpaceC
      let code := r3.takeWhile isCaiClassC
      if code.isEmpty then none
      else some (code, 3 + w1.length + 1 + w2.length + code.length)
    | _ => none
  else none

/-- Does the line contain a letter (`re.search("[A-Za-zÁÉÍÓÚÜÑáéíóúüñ]", ln)`)? -/
def hasLetterB (ln : List Char) : Bool :=
  ln.any (fun c => isAsciiAlphaC c || isSpanishAccentC c)

/-- Leftmost match of `\b(\d{1,3})\b` in a line: a maximal digit run of
length 1–3 delimited by word boundaries. -/
def findQtyNum (prev : Option Char) : List Char → Option (List Char)
  | [] => none
  | c :: rest =>
    let boundary := match prev with
      | none => true
      | some p => !isWordC p
    let run := (c :: rest).takeWhile isDigitC
    let after := (c :: rest).drop run.length
    if boundary && !run.isEmpty && run.length ≤ 3 &&
        (match after with
         | [] => true
         | a :: _ => !isWordC a) then
      some run
    else findQtyNum (some c) rest

/-- The noise tokens skipped by pass B's description search. -/
def michelinSkip : List (List Char) :=
  ["MI".data, "MICHELIN".data, "LP".data, "MARCA".data, "CAR".data]

/-- Build one pass-B item for the CAI occurrence at absolute position `p`:
look back through the preceding 1000 characters for the nearest all-numeric
line (quantity) and the nearest tyre-like line (description). -/
def buildItemB (full : List Char) (p : ℕ) (cai : List Char) : MItem :=
  let window := ((full.take p).reverse.take 1000).reverse
  let lines := ((splitlinesL window).map normWs).filter (fun ln => !ln.isEmpty)
  let headIdx :=
    match ((List.range lines.length).filter
        (fun i => containsSub (pyUpperL (lines.getD i [])) "CANTIDAD".data)).getLast? with
    | some i => i
    | none => 0
  let tailLines := lines.drop headIdx
  let qty :=
    match tailLines.reverse.findSome?
        (fun ln => if hasLetterB ln then none else findQtyNum none ln) with
    | some q => q
    | none => "1".data
  let notSkip : List Char → Bool := fun ln =>
    !(michelinSkip.any (fun sk => sk = pyUpperL ln)) && 2 < ln.length
  let desc :=
    match tailLines.reverse.find? (fun ln => notSkip ln && looksLikeTyre ln) with
    | some d => d
    | none =>
      match tailLines.reverse.find? notSkip with
      | some d => d
      | none => "SIN DESCRIPCIÓN".data
  ⟨cai, desc, qty⟩

/-- Pass B of `_extract_items_from_text`: for every `CAI : code` occurrence,
build an item from the preceding window. -/
def passBGo (fuel : ℕ) (rest : List Char) (p : ℕ) (full : List Char) : List MItem :=
  match fuel, rest with
  | 0, _ => []
  | _, [] => []
  | fuel + 1, c :: rs =>
    match matchCaiAt (c :: rs) with
    | some (cai, clen) =>
      buildItemB full p (pyStrip cai) :: passBGo fuel ((c :: rs).drop clen) (p + clen) full
    | none => passBGo fuel rs (p + 1) full

/-- `Michelin._extract_items_from_text(txt)`: pass A items then pass B
items. -/
def michelinItems (txt : List Char) : List MItem :=
  passAGo (txt.length + 1) txt ++ passBGo (txt.length + 1) txt 0 txt

/-- Attempt, at the current position, the pattern
`ENTREGAS\s+DIARIAS.*?\n\s*(H\d{7})` (`re.IGNORECASE | re.DOTALL`): after
`ENTREGAS\s+DIARIAS`, the lazy gap ends at the first newline followed by
`\s*(H\d{7})`.  Returns the captured group. -/
def entregarAttempt (s : List Char) : Option (List Char) :=
  if ciStartsWith "ENTREGAS".data s then
    let r0 := s.drop 8
    let ws := r0.takeWhile isSpaceC
    if ws.isEmpty then none
    else
      let r1 := r0.dropWhile isSpaceC
      if ciStartsWith "DIARIAS".data r1 then
        let rec lazyNl (fuel : ℕ) (t : List Char) : Option (List Char) :=
          match fuel, t with
          | 0, _ => none
          | _, [] => none
          | fuel + 1, c :: rest =>
            (if c = '\n' then
              let r2 := rest.dropWhile isSpaceC
              match r2 with
              | h :: d1 :: d2 :: d3 :: d4 :: d5 :: d6 :: d7 :: _ =>
                if (h = 'H' || h = 'h') && isDigitC d1 && isDigitC d2 && isDigitC d3 &&
                    isDigitC d4 && isDigitC d5 && isDigitC d6 && isDigitC d7 then
                  some [h, d1, d2, d3, d4, d5, d6, d7]
                else none
              | _ => none
            else none).orElse (fun _ => lazyNl fuel rest)
        lazyNl (r1.length + 1) (r1.drop 7)
      else none
  else none

/-- Scanner for `re.search` of the `ENTREGAS DIARIAS` pattern. -/
def entregarScan (fuel : ℕ) (s : List Char) : Option (List Char) :=
  match fuel, s with
  | 0, _ => none
  | _, [] => none
  | fuel + 1, _ :: rest =>
    match entregarAttempt s with
    | some g => some g
    | none => entregarScan fuel rest

/-- Scanner for the fallback `\b(H\d{7})\b` (case-sensitive): an `H` at a word
boundary followed by exactly seven digits and a trailing boundary. -/
def hCodeScan (prev : Option Char) : List Char → Option (List Char)
  | [] => none
  | c :: rest =>
    let boundary := match prev with
      | none => true
      | some p => !isWordC p
    let attempt : Option (List Char) :=
      if boundary && c = 'H' then
        let run := rest.takeWhile isDigitC
        if run.length = 7 &&
            (match rest.drop 7 with
             | [] => true
             | a :: _ => !isWordC a) then
          some ('H' :: run)
        else none
      else none
    match attempt with
    | some g => some g
    | none => hCodeScan (some c) rest

/-- `Michelin._extract_entregar_a(txt)`: find the warehouse code, then map it
through `ALMACEN_MAP` (unknown codes pass through). -/
def extractEntregarA (txt : List Char) : List Char :=
  let code :=
    match entregarScan (txt.length + 1) txt with
    | some g => pyStrip g
    | none =>
      match hCodeScan none txt with
      | some g => pyStrip g
      | none => []
  match lookupCell code michelinAlmacenMap with
  | some v => v
  | none => code

/-- Character class `[A-Z0-9\-\/]` under `re.IGNORECASE`. -/
def isRefClassC (c : Char) : Bool :=
  isAsciiUpperC c || isAsciiLowerC c || isDigitC c || c = '-' || c = '/'

/-- Attempt, at the current position, the pattern
`N\W*de\W*albar[aá]n\s*\n\s*([A-Z0-9\-\/]+)` (`re.IGNORECASE`). -/
def refAlbAttempt (s : List Char) : Option (List Char) :=
  match s with
  | c :: rest =>
    if c = 'N' || c = 'n' then
      let r1 := rest.dropWhile (fun d => !isWordC d)
      if ciStartsWith "de".data r1 then
        let r2 := (r1.drop 2).dropWhile (fun d => !isWordC d)
        if ciStartsWith "albar".data r2 then
          match r2.drop 5 with
          | a :: n :: r3 =>
            if (a = 'a' || a = 'A' || a = 'á' || a = 'Á') && (n = 'n' || n = 'N') then
              let ws := r3.takeWhile isSpaceC
              if ws.contains '\n' then
                let r4 := r3.dropWhile isSpaceC
                let grp := r4.takeWhile isRefClassC
                if grp.isEmpty then none else some grp
              else none
            else none
          | _ => none
        else none
      else none
    else none
  | [] => none

/-- Scanner for `re.search` of the `albarán` reference pattern. -/
def refAlbScan (fuel : ℕ) (s : List Char) : Option (List Char) :=
  match fuel, s with
  | 0, _ => none
  | _, [] => none
  | fuel + 1, _ :: rest =>
    match refAlbAttempt s with
    | some g => some g
    | none => refAlbScan fuel rest

/-- Scanner for the fallback `\b1[A-Z0-9]{7,8}\b` (case-sensitive). -/
def oneRefScan (prev : Option Char) : List Char → Option (List Char)
  | [] => none
  | c :: rest =>
    let boundary := match prev with
      | none => true
      | some p => !isWordC p
    let attempt : Option (List Char) :=
      if boundary && c = '1' then
        let run := rest.takeWhile (fun d => isAsciiUpperC d || isDigitC d)
        if (run.length = 7 || run.length = 8) &&
            (match rest.drop run.length with
             | [] => true
             | a :: _ => !isWordC a) then
          some ('1' :: run)
        else none
      else none
    match attempt with
    | some g => some g
    | none => oneRefScan (some c) rest

/-- `Michelin._extract_ref_albaran(txt)`. -/
def extractRefAlbaran (txt : List Char) : List Char :=
  match refAlbScan (txt.length + 1) txt with
  | some g => pyStrip g
  | none =>
    match oneRefScan none txt with
    | some g => g
    | none => []

/-- `Michelin.detect(txt, filename)`. -/
def michelinDetect (txt _fn : List Char) : Bool :=
  let t := pyUpperL txt
  containsSub t "MICHELIN".data &&
    (containsSub t "ENTREGAS DIARIAS".data || containsSub t "CAI :".data)

/-- The placeholder item inserted by `Michelin.parse` when no lines were
detected. -/
def michelinPlaceholder : MItem :=
  ⟨[], "NO SE DETECTARON LÍNEAS".data, "1".data⟩

/-- The association-list row built for one Michelin item: the price and
discount cells are always the empty string. -/
def michelinRow (ref entregar : List Char) (it : MItem) :
    List (List Char × List Char) :=
  [(colProveedor, MICHELIN_PROVEEDOR),
   (colReferencia, ref),
   (colProducto, it.cai),
   (colDescripcion, it.desc),
   (colCantidad, it.qty),
   (colPrecio, []),
   (colDescuento, []),
   (colEntregarA, entregar)]

/-- `Michelin.parse`, starting from the extracted document text and the
CAI→quantity map produced by the pdfplumber geometry pass (empty when that
pass found nothing or raised).  This vendor never raises on zero items: it
falls back to a placeholder row. -/
def michelinParse (txt : List Char) (qtyMap : List (List Char × List Char)) :
    Except (List Char) TableT :=
  let entregar := extractEntregarA txt
  let ref := extractRefAlbaran txt
  let items0 := michelinItems txt
  let items1 :=
    if qtyMap.isEmpty then items0
    else items0.map (fun it =>
      match lookupCell it.cai qtyMap with
      | some q => { it with qty := q }
      | none => it)
  let items := if items1.isEmpty then [michelinPlaceholder] else items1
  Except.ok ⟨HEAD, (items.map (michelinRow ref entregar)).map (finalizeRow HEAD)⟩

/-! ## `adapters/__init__.py`: provider detection -/

/-- One registered adapter: its key and its `detect` predicate.  `detect` is
modelled in `Except Unit Bool` so that a raising detector
(`Except.error ()`) can be distinguished from a non-match
(`Except.ok false`). -/
structure AdapterD where
  key : List Char
  detect : List Char → List Char → Except Unit Bool

/-- The keys whose detector returns `True` (raising detectors and `False`
results contribute nothing) — the `hits` list of `detect_provider`. -/
def matchKeys (reg : List AdapterD) (txt fn : List Char) : List (List Char) :=
  reg.filterMap (fun a =>
    match a.detect txt fn with
    | Except.ok true => some a.key
    | _ => none)

/-- `adapters.detect_provider(txt, filename)` over a registry: the single
hit's key when exactly one detector fires, `None` otherwise. -/
def detect_provider (reg : List AdapterD) (txt fn : List Char) : Option (List Char) :=
  let hits := matchKeys reg txt fn
  if hits.length = 1 then hits.head? else none

/-- The registry as populated by the adapter imports (`gpautomocion`,
`michelin`, `varona`, in registration order); the three concrete detectors
never raise. -/
def realRegistry : List AdapterD :=
  [⟨"grupo_pena".data, fun t f => Except.ok (gpDetect t f)⟩,
   ⟨"michelin".data, fun t f => Except.ok (michelinDetect t f)⟩,
   ⟨"varona".data, fun t f => Except.ok (varonaDetect t f)⟩]

/-! ## Claim-side (spec-worded) definitions and concrete inputs -/

/-- Modelled from the claim's wording (C5): the discount candidates of a row
are the numeric tokens in the horizontal band `[450, 520]` whose value is at
most `100`, read left to right across the row. -/
def dtoCandidatesSpec (fila0 : List Token) : List ℚ :=
  (sortByX0 fila0).filterMap (fun w =>
    match numReMatch w.text with
    | none => none
    | some v =>
      let q := ratOfDecTxt v
      if (450 : ℚ) ≤ w.x0 ∧ w.x0 ≤ (520 : ℚ) ∧ q ≤ (100 : ℚ) then some q else none)

/-- Modelled from the claim's wording (C5): `0.00` for no candidate, the
value for one, and `100 × (1 − (1−d1/100)×(1−d2/100))` on the last two
candidates otherwise, each rendered to two decimals. -/
def dtoSpecStr (cands : List ℚ) : List Char :=
  match cands.reverse with
  | [] => "0.00".data
  | [v] => format2 v
  | d2 :: d1 :: _ => format2 (100 * (1 - (1 - d1 / 100) * (1 - d2 / 100)))

/-- The discount field varona computes for a row, in isolation. -/
def varonaDtoOfRow (fila0 : List Token) : List Char :=
  varonaDtoStr (varonaDtoVals (varonaNums (sortByX0 fila0)))

/-- The C6 scenario row: code `ABC-1234` at `x0 = 40`, description tokens at
`x0 = 150` and `200`, quantity `2,00` at `x0 = 320`, price `15,50` at
`x0 = 480`, all at the same vertical position. -/
def c6words : List Token :=
  [⟨"ABC-1234".data, 40, 100⟩,
   ⟨"FILTRO".data, 150, 100⟩,
   ⟨"ACEITE".data, 200, 100⟩,
   ⟨"2,00".data, 320, 100⟩,
   ⟨"15,50".data, 480, 100⟩]

/-- The C5 scenario row: a varona code token, a price token at `x0 = 400`,
and the two discount tokens `65,00` and `15,00` in band `[450, 520]`. -/
def c5row : List Token :=
  [⟨"18542003".data, 40, 10⟩,
   ⟨"FILTRO".data, 120, 10⟩,
   ⟨"10,00".data, 400, 10⟩,
   ⟨"65,00".data, 460, 10⟩,
   ⟨"15,00".data, 500, 10⟩]

/-- The order line varona produces for `c5row`. -/
def c5line : VLine :=
  ⟨"42003".data, "FILTRO".data, "1.00".data, "10.00".data, "70.25".data⟩

/-- Tokens exhibiting the varona grouper's reference drift: the first token's
`top` is `0.0` (falsy in Python), so `y_ref = y_ref or w["top"]` re-fixes the
reference to each accumulated token's `top`. -/
def c7words : List Token :=
  [⟨"A".data, 100, 0⟩,
   ⟨"B".data, 50, mkRat 8 10⟩,
   ⟨"C".data, 10, mkRat 15 10⟩]

/-- A varona row list whose tokens all have nonzero `top`. -/
def c7posWords : List Token :=
  [⟨"A".data, 100, 5⟩,
   ⟨"B".data, 50, mkRat 56 10⟩,
   ⟨"C".data, 10, 20⟩]

/-- A text with no `CAI` marker and no `CANTIDAD` label: Michelin detects
zero order lines on it. -/
def mTxt0 : List Char := "sin lineas relevantes".data

/-- The table Michelin returns for `mTxt0`: a successful result holding only
the placeholder row. -/
def mCexTable : TableT :=
  ⟨HEAD,
   [["MICHELIN ESPAÑA PORTUGAL, S.A.".data, [], [],
     "NO SE DETECTARON LÍNEAS".data, "1".data, [], [], []]]⟩

/-- A varona word list that parses to one order line (used to witness
schema claims). -/
def vWitWords : List Token :=
  [⟨"1854200348".data, 40, 10⟩,
   ⟨"10,00".data, 400, 10⟩]

def gpWitTable : TableT :=
  match gpParse c6words with
  | Except.ok t => t
  | Except.error _ => ⟨[], []⟩

def vWitTable : TableT :=
  match varonaParse vWitWords with
  | Except.ok t => t
  | Except.error _ => ⟨[], []⟩

/-! ## Helper lemmas -/

theorem qAdd_eq (a b : ℚ) : qAdd a b = a + b := by
  rw [qAdd, Rat.divInt_eq_div]
  conv_rhs => rw [← Rat.num_div_den a, ← Rat.num_div_den b]
  have ha : ((a.den : ℚ)) ≠ 0 := by exact_mod_cast a.den_nz
  have hb : ((b.den : ℚ)) ≠ 0 := by exact_mod_cast b.den_nz
  push_cast
  field_simp

theorem qSub_eq (a b : ℚ) : qSub a b = a - b := by
  rw [qSub, Rat.divInt_eq_div]
  conv_rhs => rw [← Rat.num_div_den a, ← Rat.num_div_den b]
  have ha : ((a.den : ℚ)) ≠ 0 := by exact_mod_cast a.den_nz
  have hb : ((b.den : ℚ)) ≠ 0 := by exact_mod_cast b.den_nz
  push_cast
  field_simp
  ring

theorem qMul_eq (a b : ℚ) : qMul a b = a * b := by
  rw [qMul, Rat.divInt_eq_div]
  conv_rhs => rw [← Rat.num_div_den a, ← Rat.num_div_den b]
  have ha : ((a.den : ℚ)) ≠ 0 := by exact_mod_cast a.den_nz
  have hb : ((b.den : ℚ)) ≠ 0 := by exact_mod_cast b.den_nz
  push_cast
  field_simp

theorem qDiv_eq (a b : ℚ) : qDiv a b = a / b := by
  rcases eq_or_ne b 0 with rfl | hb
  · simp [qDiv, Rat.divInt_eq_div]
  · rw [qDiv, Rat.divInt_eq_div]
    conv_rhs => rw [← Rat.num_div_den a, ← Rat.num_div_den b]
    have ha : ((a.den : ℚ)) ≠ 0 := by exact_mod_cast a.den_nz
    have hd : ((b.den : ℚ)) ≠ 0 := by exact_mod_cast b.den_nz
    have hn : ((b.num : ℚ)) ≠ 0 := by exact_mod_cast Rat.num_ne_zero.mpr hb
    push_cast
    rw [div_div_div_eq, mul_comm (a.den : ℚ) (b.num : ℚ)]

theorem qAbs_eq (a : ℚ) : qAbs a = |a| := by
  rw [qAbs]
  split
  · rw [abs_of_neg]
    · rfl
    · exact Rat.num_neg.mp (by assumption)
  · rw [abs_of_nonneg]
    exact Rat.num_nonneg.mp (by omega)

theorem qFloor_eq (q : ℚ) : qFloor q = ⌊q⌋ := by
  rw [qFloor, Int.fdiv_eq_ediv _ (by exact_mod_cast Nat.zero_le q.den)]
  rw [Rat.floor_def]

theorem roundHalfEven_intCast (n : ℤ) : roundHalfEven (Rat.divInt n 1) = n := by
  have h1 : (Rat.divInt n 1) = (n : ℚ) := by
    rw [Rat.divInt_eq_div]; simp
  rw [roundHalfEven]
  have hf : qFloor (Rat.divInt n 1) = n := by
    rw [qFloor_eq, h1, Int.floor_intCast]
  rw [hf]
  have hr : qSub (Rat.divInt n 1) (Rat.divInt n 1) = 0 := by
    rw [qSub_eq]; ring
  rw [hr]
  have : (0 : ℚ) < mkRat 1 2 := by
    rw [Rat.mkRat_eq_div]; norm_num
  simp [this]

theorem mem_insTop {a w : Token} {l : List Token} :
    a ∈ insTop w l ↔ a = w ∨ a ∈ l := by
  induction l with
  | nil => simp [insTop]
  | cons v vs ih =>
    rw [insTop]
    split
    · simp only [List.mem_cons, ih]
      tauto
    · simp only [List.mem_cons]

theorem mem_sortByTop_aux {a : Token} (l : List Token) (acc : List Token) :
    a ∈ l.foldl (fun acc w => insTop w acc) acc ↔ a ∈ acc ∨ a ∈ l := by
  induction l generalizing acc with
  | nil => simp
  | cons w ws ih =>
    rw [List.foldl_cons, ih]
    simp only [mem_insTop, List.mem_cons]
    tauto

theorem mem_sortByTop {a : Token} {l : List Token} :
    a ∈ sortByTop l ↔ a ∈ l := by
  rw [sortByTop, mem_sortByTop_aux]
  simp



theorem roundHalfEven_cast (n : ℤ) : roundHalfEven ((n : ℚ)) = n := by
  have h : ((n : ℚ)) = Rat.divInt n 1 := by
    rw [Rat.divInt_eq_div]; simp
  rw [h, roundHalfEven_intCast]

/-! ## Claim C6 -/

/-- C6: on a row with code token `ABC-1234` at `x0 = 40`, description tokens
`FILTRO` and `ACEITE` in `[150, 250]`, quantity token `2,00` at `x0 = 320`,
and price token `15,50` at `x0 = 480`, the Grupo Peña matcher emits exactly
one order line with code `1234`, description `FILTRO ACEITE`, quantity
`2.00`, and unit price `15.50`. -/
theorem grupo_pena_c6_scenario :
    gpParsearLineas c6words =
      [⟨"1234".data, "FILTRO ACEITE".data, "2.00".data, "15.50".data⟩] := by
  decide

/-! ## Claim C4 -/

/-- C4 counterexample: combining the single discount `10⁻⁷` does not yield
`10⁻⁷` — `_parse_discounts_chain` rounds the effective percentage to six
decimals, so the result is `0`, both for the numeric fold and for the
string entry point. -/
theorem combine_discounts_single_not_identity :
    combineDiscounts [Rat.divInt 1 10000000] ≠ Rat.divInt 1 10000000 ∧
    discountTokens "0,0000001".data = [Rat.divInt 1 10000000] ∧
    parseDiscountsChain "0,0000001".data = 0 := by
  refine ⟨by decide, by decide, by decide⟩

/-- C4 amended: the discount-chain combiner maps the empty sequence to `0`,
maps `[50, 50]` to `75`, is commutative on two-element sequences (in
particular on `[65, 15]` and `[15, 65]`), and maps a single discount `d` to
`d` itself whenever `d` is an integer multiple of `10⁻⁶` (the code rounds the
effective percentage to six decimal places, so smaller-grained inputs are
perturbed). -/
theorem combine_discounts_laws :
    combineDiscounts [] = 0 ∧
    (∀ n : ℤ, combineDiscounts [Rat.divInt n 1000000] = Rat.divInt n 1000000) ∧
    combineDiscounts [50, 50] = 75 ∧
    (∀ a b : ℚ, combineDiscounts [a, b] = combineDiscounts [b, a]) ∧
    combineDiscounts [65, 15] = combineDiscounts [15, 65] := by
  refine ⟨by decide, ?_, by decide, ?_, ?_⟩
  · intro n
    unfold combineDiscounts
    simp only [List.foldl_cons, List.foldl_nil]
    rw [round6]
    have harg :
        qMul (qMul (qSub 1 (qMul 1 (qSub 1 (qDiv (Rat.divInt n 1000000) 100)))) 100)
            1000000 = ((n : ℚ)) := by
      simp only [qMul_eq, qSub_eq, qDiv_eq, Rat.divInt_eq_div]
      push_cast
      ring
    rw [harg, roundHalfEven_cast]
  · intro a b
    unfold combineDiscounts
    simp only [List.foldl_cons, List.foldl_nil]
    rw [round6, round6]
    have harg :
        qMul (qMul (qSub 1 (qMul (qMul 1 (qSub 1 (qDiv a 100))) (qSub 1 (qDiv b 100)))) 100)
            1000000 =
        qMul (qMul (qSub 1 (qMul (qMul 1 (qSub 1 (qDiv b 100))) (qSub 1 (qDiv a 100)))) 100)
            1000000 := by
      simp only [qMul_eq, qSub_eq, qDiv_eq]
      ring
    rw [harg]
  · decide

/-! ## Claim C8 -/

/-- C8: `parse_decimal` converts comma-decimal strings and never raises:
`"12,34"` gives `12.34`, `"-1,00"` gives `-1`, the empty string gives the
caller's default, any unconvertible string gives the default, and in general
the result is either the converted value or the default. -/
theorem parse_decimal_laws :
    (∀ d : ℚ, parse_decimal "12,34".data d = mkRat 1234 100) ∧
    (∀ d : ℚ, parse_decimal "-1,00".data d = -1) ∧
    (∀ d : ℚ, parse_decimal [] d = d) ∧
    (∀ (s : List Char) (d : ℚ),
      pyFloat (parseDecimalNorm s) = none → parse_decimal s d = d) ∧
    (∀ (s : List Char) (d : ℚ),
      parse_decimal s d = d ∨
        ∃ q, pyFloat (parseDecimalNorm s) = some q ∧ parse_decimal s d = q) := by
  refine ⟨?_, ?_, ?_, ?_, ?_⟩
  · intro d
    unfold parse_decimal
    rw [show pyFloat (parseDecimalNorm "12,34".data) = some (mkRat 1234 100) from by decide]
    rfl
  · intro d
    unfold parse_decimal
    rw [show pyFloat (parseDecimalNorm "-1,00".data) = some (-1) from by decide]
    rfl
  · intro d
    unfold parse_decimal
    rw [show pyFloat (parseDecimalNorm []) = none from by decide]
    rfl
  · intro s d h
    unfold parse_decimal
    rw [h]
    rfl
  · intro s d
    cases h : pyFloat (parseDecimalNorm s) with
    | none =>
      left
      unfold parse_decimal
      rw [h]
      rfl
    | some q =>
      right
      refine ⟨q, rfl, ?_⟩
      unfold parse_decimal
      rw [h]
      rfl

/-- C8 witness: the unconvertible string `"garbage"` yields the supplied
default `7`. -/
theorem parse_decimal_laws_witness : parse_decimal "garbage".data 7 = 7 :=
  parse_decimal_laws.2.2.2.1 "garbage".data 7 (by decide)

/-! ## Claim C9 -/

theorem mem_pyStrip {c : Char} {s : List Char} (h : c ∈ pyStrip s) : c ∈ s := by
  rw [pyStrip] at h
  rw [List.mem_reverse] at h
  have h2 := (List.dropWhile_sublist (p := isSpaceC)).mem h
  rw [List.mem_reverse] at h2
  exact (List.dropWhile_sublist (p := isSpaceC)).mem h2

/-- C9: `parse_decimal` removes every `.` before conversion — if the input
contains no comma, the normalized string contains no dot at all, and in
particular `parse_decimal("12.34")` is `1234`, not `12.34`. -/
theorem parse_decimal_drops_dots :
    (∀ s : List Char, s.contains ',' = false →
      (parseDecimalNorm s).contains '.' = false) ∧
    (∀ d : ℚ, parse_decimal "12.34".data d = 1234) ∧
    parse_decimal "12.34".data 0 ≠ mkRat 1234 100 := by
  refine ⟨?_, ?_, by decide⟩
  · intro s h
    rw [Bool.eq_false_iff]
    intro hcon
    rw [List.contains_eq_any_beq] at hcon
    rw [List.any_eq_true] at hcon
    obtain ⟨c, hc, hbeq⟩ := hcon
    have hcd : '.' = c := by
      exact beq_iff_eq.mp hbeq
    subst hcd
    rw [parseDecimalNorm, List.mem_map] at hc
    obtain ⟨c0, hc0, hmap⟩ := hc
    rw [List.mem_filter] at hc0
    obtain ⟨hmem, hne⟩ := hc0
    by_cases hcomma : c0 = ','
    · subst hcomma
      have : ((pyStrip s).contains ',') = false := by
        rw [Bool.eq_false_iff]
        intro hcon2
        rw [List.contains_eq_any_beq, List.any_eq_true] at hcon2
        obtain ⟨c1, hc1, hb1⟩ := hcon2
        have : (',' : Char) = c1 := beq_iff_eq.mp hb1
        subst this
        have : s.contains ',' = true := by
          rw [List.contains_eq_any_beq, List.any_eq_true]
          exact ⟨',', mem_pyStrip hc1, by simp⟩
        rw [h] at this
        cases this
      rw [Bool.eq_false_iff] at this
      exact this (by
        rw [List.contains_eq_any_beq, List.any_eq_true]
        exact ⟨',', hmem, by simp⟩)
    · rw [if_neg hcomma] at hmap
      subst hmap
      simp at hne
  · intro d
    unfold parse_decimal
    rw [show pyFloat (parseDecimalNorm "12.34".data) = some 1234 from by decide]
    rfl

/-- C9 witness: on `"12.34"` the normalized string has no dot, and the parse
yields `1234`. -/
theorem parse_decimal_drops_dots_witness :
    (parseDecimalNorm "12.34".data).contains '.' = false ∧
      parse_decimal "12.34".data 5 = 1234 :=
  ⟨parse_decimal_drops_dots.1 "12.34".data (by decide),
   parse_decimal_drops_dots.2.1 5⟩

/-! ## Claim C3 -/

/-- C3: `detect_provider` returns the unique hit's key when exactly one
registered detector fires, returns `None` when zero or at least two fire, and
an entry whose detector raises (or returns `False`) contributes nothing — the
registry behaves as if that entry were absent. -/
theorem detect_provider_laws :
    ∀ (reg : List AdapterD) (txt fn : List Char),
      (∀ k, matchKeys reg txt fn = [k] → detect_provider reg txt fn = some k) ∧
      (matchKeys reg txt fn = [] → detect_provider reg txt fn = none) ∧
      (2 ≤ (matchKeys reg txt fn).length → detect_provider reg txt fn = none) ∧
      (∀ (pre post : List AdapterD) (a : AdapterD),
        (a.detect txt fn = Except.error () ∨ a.detect txt fn = Except.ok false) →
          detect_provider (pre ++ a :: post) txt fn =
            detect_provider (pre ++ post) txt fn) := by
  intro reg txt fn
  refine ⟨?_, ?_, ?_, ?_⟩
  · intro k h
    unfold detect_provider
    rw [h]
    rfl
  · intro h
    unfold detect_provider
    rw [h]
    rfl
  · intro h
    unfold detect_provider
    rw [if_neg]
    omega
  · intro pre post a hdet
    have hfa :
        (match a.detect txt fn with
          | Except.ok true => some a.key
          | _ => none) = none := by
      rcases hdet with h | h <;> rw [h]
    have hkeys : matchKeys (pre ++ a :: post) txt fn = matchKeys (pre ++ post) txt fn := by
      unfold matchKeys
      rw [List.filterMap_append, List.filterMap_append, List.filterMap_cons, hfa]
    unfold detect_provider
    rw [hkeys]

/-- C3 witness: on a text carrying only varona's signature, the real registry
resolves to `varona`; with an erroring extra detector prepended, the result is
unchanged; and on a text carrying both Grupo Peña's and Michelin's
signatures, the result is `None`. -/
theorem detect_provider_laws_witness :
    detect_provider realRegistry "VARONA 2008, S.L.".data "doc.pdf".data =
      some "varona".data ∧
    detect_provider
        (⟨"boom".data, fun _ _ => Except.error ()⟩ :: realRegistry)
        "VARONA 2008, S.L.".data "doc.pdf".data =
      some "varona".data ∧
    detect_provider realRegistry "GRUPO PENA MICHELIN CAI : x".data "doc.pdf".data =
      none := by
  refine ⟨?_, ?_, ?_⟩
  · exact (detect_provider_laws realRegistry _ _).1 "varona".data (by decide)
  · have h := (detect_provider_laws realRegistry "VARONA 2008, S.L.".data "doc.pdf".data).2.2.2
      [] realRegistry ⟨"boom".data, fun _ _ => Except.error ()⟩ (Or.inl rfl)
    rw [List.nil_append, List.nil_append] at h
    rw [h]
    exact (detect_provider_laws realRegistry _ _).1 "varona".data (by decide)
  · exact (detect_provider_laws realRegistry _ _).2.2.1 (by decide)

/-! ## Claim C1 -/

/-- C1 counterexample: on a document whose text yields zero detected items,
`Michelin.parse` does not raise a "no line items found" error — it returns a
successful table containing a single placeholder row
(`NO SE DETECTARON LÍNEAS`). -/
theorem michelin_no_lines_returns_placeholder :
    michelinItems mTxt0 = [] ∧ michelinParse mTxt0 [] = Except.ok mCexTable := by
  constructor
  · decide
  · decide

/-- C1 amended: when zero order lines are detected after matching, the Grupo
Peña and Varona matchers raise the document-level "no line items found" error
(`ValueError`), while the Michelin matcher instead returns a successful
one-row placeholder table. -/
theorem parse_no_lines_behavior :
    (∀ words, gpParsearLineas words = [] → gpParse words = Except.error noLineasMsg) ∧
    (∀ words, varonaParsear words = [] → varonaParse words = Except.error noLineasMsg) ∧
    (∀ txt qtyMap, michelinItems txt = [] →
      michelinParse txt qtyMap =
        Except.ok ⟨HEAD,
          [finalizeRow HEAD
            (michelinRow (extractRefAlbaran txt) (extractEntregarA txt)
              michelinPlaceholder)]⟩) := by
  refine ⟨?_, ?_, ?_⟩
  · intro words h
    simp [gpParse, h]
  · intro words h
    simp [varonaParse, h]
  · intro txt qtyMap h
    simp [michelinParse, h]

/-- C1 witness: with no tokens, Grupo Peña and Varona raise; on `mTxt0`,
Michelin returns the placeholder table. -/
theorem parse_no_lines_behavior_witness :
    gpParse [] = Except.error noLineasMsg ∧
    varonaParse [] = Except.error noLineasMsg ∧
    michelinParse mTxt0 [] =
      Except.ok ⟨HEAD,
        [finalizeRow HEAD
          (michelinRow (extractRefAlbaran mTxt0) (extractEntregarA mTxt0)
            michelinPlaceholder)]⟩ :=
  ⟨parse_no_lines_behavior.1 [] (by decide),
   parse_no_lines_behavior.2.1 [] (by decide),
   parse_no_lines_behavior.2.2 mTxt0 [] (by decide)⟩

/-! ## Claim C2 -/

theorem finalizeRow_HEAD_length (r : List (List Char × List Char)) :
    (finalizeRow HEAD r).length = 8 := by
  rw [finalizeRow, List.length_map]
  rfl

theorem michelinRow_finalize (ref ent : List Char) (it : MItem) :
    finalizeRow HEAD (michelinRow ref ent it) =
      [MICHELIN_PROVEEDOR, ref, it.cai, it.desc, it.qty, [], [], ent] := rfl

/-- C2: whenever a vendor's `parse` succeeds, the returned table's header is
exactly the eight declared columns in declared order and every row has
exactly eight cells; Michelin, which populates no price or discount, always
carries the empty string (never a null marker — cells are plain strings) in
those two cells. -/
theorem parse_schema_complete :
    (∀ words t, gpParse words = Except.ok t →
      t.header = HEAD ∧ ∀ r ∈ t.rows, r.length = 8) ∧
    (∀ words t, varonaParse words = Except.ok t →
      t.header = HEAD ∧ ∀ r ∈ t.rows, r.length = 8) ∧
    (∀ txt qtyMap t, michelinParse txt qtyMap = Except.ok t →
      t.header = HEAD ∧ ∀ r ∈ t.rows,
        r.length = 8 ∧ r.getD 5 [] = [] ∧ r.getD 6 [] = []) := by
  refine ⟨?_, ?_, ?_⟩
  · intro words t h
    rw [gpParse] at h
    split at h
    · cases h
    · cases h
      refine ⟨rfl, ?_⟩
      intro r hr
      rw [List.mem_map] at hr
      obtain ⟨x, _, hx⟩ := hr
      rw [← hx]
      exact finalizeRow_HEAD_length x
  · intro words t h
    rw [varonaParse] at h
    split at h
    · cases h
    · cases h
      refine ⟨rfl, ?_⟩
      intro r hr
      rw [List.mem_map] at hr
      obtain ⟨x, _, hx⟩ := hr
      rw [← hx]
      exact finalizeRow_HEAD_length x
  · intro txt qtyMap t h
    rw [michelinParse] at h
    cases h
    refine ⟨rfl, ?_⟩
    intro r hr
    rw [List.mem_map] at hr
    obtain ⟨x, hx0, hx⟩ := hr
    rw [List.mem_map] at hx0
    obtain ⟨it, _, hit⟩ := hx0
    rw [← hx, ← hit, michelinRow_finalize]
    refine ⟨rfl, rfl, rfl⟩

/-- C2 witness: the concrete Grupo Peña, Varona and Michelin parses all carry
the declared header. -/
theorem parse_schema_complete_witness :
    gpWitTable.header = HEAD ∧ vWitTable.header = HEAD ∧ mCexTable.header = HEAD :=
  ⟨(parse_schema_complete.1 c6words gpWitTable rfl).1,
   (parse_schema_complete.2.1 vWitWords vWitTable rfl).1,
   (parse_schema_complete.2.2 mTxt0 [] mCexTable (by decide)).1⟩


/-! ## Claim C5 -/

theorem varonaDtoVals_eq_spec (l : List Token) :
    varonaDtoVals (varonaNums l) =
      l.filterMap (fun w =>
        match numReMatch w.text with
        | none => none
        | some v =>
          let q := ratOfDecTxt v
          if (450 : ℚ) ≤ w.x0 ∧ w.x0 ≤ (520 : ℚ) ∧ q ≤ (100 : ℚ) then some q
          else none) := by
  induction l with
  | nil => rfl
  | cons w l ih =>
    rw [varonaNums, List.filterMap_cons, List.filterMap_cons]
    cases hm : numReMatch w.text with
    | none =>
      simp only [Option.map_none']
      rw [← varonaNums, ih]
    | some v =>
      simp only [Option.map_some']
      rw [varonaDtoVals, List.filter_cons]
      by_cases hband : ((450 : ℚ) ≤ w.x0 ∧ w.x0 ≤ (520 : ℚ))
      · rw [if_pos (by simp [hband.1, hband.2])]
        rw [List.filterMap_cons]
        simp only []
        by_cases hval : (ratOfDecTxt v ≤ (100 : ℚ))
        · rw [if_pos hval, if_pos ⟨hband.1, hband.2, hval⟩]
          rw [← varonaDtoVals, ← varonaNums, ih]
        · rw [if_neg hval, if_neg (by
            intro hc
            exact hval hc.2.2)]
          rw [← varonaDtoVals, ← varonaNums, ih]
      · rw [if_neg (by
          intro hc
          rw [Bool.and_eq_true, decide_eq_true_eq, decide_eq_true_eq] at hc
          exact hband ⟨hc.1, hc.2⟩), if_neg (by
          intro hc
          exact hband ⟨hc.1, hc.2.1⟩)]
        rw [← varonaDtoVals, ← varonaNums, ih]

theorem varonaDtoStr_eq_spec (vals : List ℚ) : varonaDtoStr vals = dtoSpecStr vals := by
  rw [varonaDtoStr, dtoSpecStr]
  cases hrev : vals.reverse with
  | nil => rfl
  | cons d2 tl =>
    cases tl with
    | nil => rfl
    | cons d1 tl2 =>
      have harg :
          qMul 100 (qSub 1 (qMul (qSub 1 (qDiv d1 100)) (qSub 1 (qDiv d2 100)))) =
            100 * (1 - (1 - d1 / 100) * (1 - d2 / 100)) := by
        simp only [qMul_eq, qSub_eq, qDiv_eq]
      exact congrArg format2 harg

/-- C5: the Varona discount field is computed from the numeric tokens in band
`[450, 520]` whose value is at most 100 — `0.00` for none, the value itself
for one, and the compound `100 × (1 − (1−d1/100)×(1−d2/100))` of the last two
otherwise, rendered to two decimals; the order line built by the row matcher
carries exactly this field, and on the scenario row with `65,00` and `15,00`
in band it equals `70.25`. -/
theorem varona_discount_field :
    (∀ fila, varonaDtoOfRow fila = dtoSpecStr (dtoCandidatesSpec fila)) ∧
    (∀ fila r, varonaParseRow fila = some r → r.dto = varonaDtoOfRow fila) ∧
    varonaDtoOfRow c5row = "70.25".data := by
  refine ⟨?_, ?_, by decide⟩
  · intro fila
    rw [varonaDtoOfRow, dtoCandidatesSpec, ← varonaDtoVals_eq_spec,
      varonaDtoStr_eq_spec]
  · intro fila r h
    simp only [varonaParseRow] at h
    split at h
    · cases h
    · split at h
      · cases h
      · split at h
        · cases h
        · cases h
          rfl

/-- C5 witness: the line parsed from the scenario row carries the discount
field computed on that row, which is `70.25`. -/
theorem varona_discount_field_witness : c5line.dto = varonaDtoOfRow c5row :=
  varona_discount_field.2.1 c5row c5line (by decide)

/-! ## Claim C10 -/

theorem gpParsearLineasGo_eq_filterMap (rows : List (List Token)) :
    gpParsearLineasGo rows = rows.filterMap gpParseRow := by
  induction rows with
  | nil => rfl
  | cons fila rest ih =>
    rw [gpParsearLineasGo, List.filterMap_cons]
    cases h : gpParseRow fila with
    | none => rw [ih]
    | some l => rw [ih]

/-- C10: the Grupo Peña matcher's output is exactly the per-row partial
matcher filtered over the grouped rows (a skipped row contributes nothing,
with no error and no default substitution), and a row produces a line iff it
has a code-pattern token in band `[30, 120]`, a numeric token in band
`[300, 360]`, and a resolvable price (in-band numeric or `-`, rightmost
numeric anywhere, or an in-band `-` marker). -/
theorem gp_row_acceptance :
    (∀ words, gpParsearLineas words =
      (agruparPorFilas (mkRat 12 10) words).filterMap gpParseRow) ∧
    (∀ fila, (gpParseRow fila).isSome = true ↔
      ((∃ w ∈ fila, ((30 : ℚ) ≤ w.x0 ∧ w.x0 ≤ 120) ∧ gpCodeFull w.text = true) ∧
       (∃ w ∈ fila, ((300 : ℚ) ≤ w.x0 ∧ w.x0 ≤ 360) ∧ numRe24Full w.text = true) ∧
       ((∃ w ∈ fila, ((470 : ℚ) ≤ w.x0 ∧ w.x0 ≤ 510) ∧
          (numRe24Full w.text = true ∨ w.text = ['-'])) ∨
        (∃ w ∈ fila, numRe24Full w.text = true) ∨
        (∃ w ∈ fila, ((470 : ℚ) ≤ w.x0 ∧ w.x0 ≤ 510) ∧ w.text = ['-'])))) := by
  constructor
  · intro words
    rw [gpParsearLineas, gpParsearLineasGo_eq_filterMap]
  · intro fila
    constructor
    · intro h
      rw [gpParseRow] at h
      split at h
      · cases h
      · rename_i codeTok hcode
        have hc1 : codeTok ∈ fila := List.mem_of_find?_eq_some hcode
        have hc2 := List.find?_some hcode
        simp only [Bool.and_eq_true, decide_eq_true_eq] at hc2
        refine ⟨⟨codeTok, hc1, ⟨hc2.1.1, hc2.1.2⟩, hc2.2⟩, ?_⟩
        split at h
        · cases h
        · rename_i qtyTok hqty
          have hq1 : qtyTok ∈ fila := List.mem_of_find?_eq_some hqty
          have hq2 := List.find?_some hqty
          simp only [Bool.and_eq_true, decide_eq_true_eq] at hq2
          refine ⟨⟨qtyTok, hq1, ⟨hq2.1.1, hq2.1.2⟩, hq2.2⟩, ?_⟩
          exact Or.inr (Or.inl ⟨qtyTok, hq1, hq2.2⟩)
    · rintro ⟨⟨w1, hw1, hb1, hp1⟩, ⟨w2, hw2, hb2, hp2⟩, _⟩
      rw [gpParseRow]
      have hcode : (fila.find? (fun w =>
          decide (30 ≤ w.x0) && decide (w.x0 ≤ 120) && gpCodeFull w.text)).isSome = true := by
        rw [List.find?_isSome]
        exact ⟨w1, hw1, by simp [hb1.1, hb1.2, hp1]⟩
      cases hfc : fila.find? (fun w =>
          decide (30 ≤ w.x0) && decide (w.x0 ≤ 120) && gpCodeFull w.text) with
      | none => rw [hfc] at hcode; cases hcode
      | some codeTok =>
        have hqty : (fila.find? (fun w =>
            decide (300 ≤ w.x0) && decide (w.x0 ≤ 360) && numRe24Full w.text)).isSome = true := by
          rw [List.find?_isSome]
          exact ⟨w2, hw2, by simp [hb2.1, hb2.2, hp2]⟩
        cases hfq : fila.find? (fun w =>
            decide (300 ≤ w.x0) && decide (w.x0 ≤ 360) && numRe24Full w.text) with
        | none => rw [hfq] at hqty; cases hqty
        | some qtyTok =>
          simp only []
          cases hfp : fila.find? (fun w =>
              decide (470 ≤ w.x0) && decide (w.x0 ≤ 510) &&
                (numRe24Full w.text || w.text = ['-'])) with
          | some p => rfl
          | none =>
            have hq2 := List.find?_some hfq
            simp only [Bool.and_eq_true, decide_eq_true_eq] at hq2
            have hmem : qtyTok ∈ fila.filter (fun w => numRe24Full w.text) := by
              rw [List.mem_filter]
              exact ⟨List.mem_of_find?_eq_some hfq, hq2.2⟩
            cases hfl : fila.filter (fun w => numRe24Full w.text) with
            | nil => rw [hfl] at hmem; cases hmem
            | cons a as =>
              simp only [maxByX0]
              rfl

/-! ## Claim C7 -/

/-- C7 counterexample: on tokens whose first `top` is `0.0`, the Varona
grouper (`agrupar_filas`) does not implement the claimed algorithm — the
reference is re-fixed (Python's `y_ref = y_ref or w["top"]` treats `0.0` as
falsy) so a token beyond tolerance of the first token is still accumulated,
and the closed row is not sorted left-to-right. -/
theorem varona_grouper_not_spec :
    agruparFilas 1 c7words ≠ groupRowsSpec 1 c7words ∧
    agruparFilas 1 c7words =
      [[⟨"A".data, 100, 0⟩, ⟨"B".data, 50, mkRat 8 10⟩, ⟨"C".data, 10, mkRat 15 10⟩]] ∧
    groupRowsSpec 1 c7words =
      [[⟨"B".data, 50, mkRat 8 10⟩, ⟨"A".data, 100, 0⟩],
       [⟨"C".data, 10, mkRat 15 10⟩]] := by
  refine ⟨by decide, by decide, by decide⟩

theorem gpGo_eq_spec (tol : ℚ) (ws : List Token) :
    ∀ (y : ℚ) (fila : List Token), fila ≠ [] →
      agruparPorFilasGo tol (some y) fila ws = groupRowsSpecGo tol y fila ws := by
  induction ws with
  | nil =>
    intro y fila hf
    rw [agruparPorFilasGo, groupRowsSpecGo]
    rw [if_neg (by simpa [List.isEmpty_iff] using hf)]
  | cons w ws ih =>
    intro y fila hf
    rw [agruparPorFilasGo, groupRowsSpecGo]
    by_cases hcl : qAbs (qSub w.top y) ≤ tol
    · rw [if_pos hcl, if_pos hcl]
      exact ih y (fila ++ [w]) (by simp)
    · rw [if_neg hcl, if_neg hcl]
      rw [ih w.top [w] (by simp)]

theorem vGo_eq_spec (tol : ℚ) (ws : List Token) :
    ∀ (y : ℚ) (fila : List Token), y ≠ 0 → (∀ w ∈ ws, w.top ≠ 0) → fila ≠ [] →
      (agruparFilasGo tol (some y) fila ws).map sortByX0 =
        groupRowsSpecGo tol y fila ws := by
  induction ws with
  | nil =>
    intro y fila hy hws hf
    rw [agruparFilasGo, groupRowsSpecGo]
    rw [if_neg (by simpa [List.isEmpty_iff] using hf)]
    rfl
  | cons w ws ih =>
    intro y fila hy hws hf
    rw [agruparFilasGo, groupRowsSpecGo]
    by_cases hcl : qAbs (qSub w.top y) ≤ tol
    · rw [if_pos hcl, if_pos hcl, if_neg hy]
      exact ih y (fila ++ [w]) hy (fun v hv => hws v (List.mem_cons_of_mem w hv)) (by simp)
    · rw [if_neg hcl, if_neg hcl]
      rw [List.map_cons]
      rw [ih w.top [w] (hws w (List.mem_cons_self w ws)) (fun v hv => hws v (List.mem_cons_of_mem w hv)) (by simp)]

/-- C7 amended: the Grupo Peña grouper (`_agrupar_por_filas`) implements the
claimed algorithm exactly — reference y fixed by the row's first token, rows
closed sorted left-to-right on exceeding the tolerance.  The Varona grouper
(`agrupar_filas`) leaves closed rows unsorted (its caller sorts each row
afterwards) and re-fixes the reference whenever the stored reference is
`0.0`; whenever no token sits at `top = 0`, it produces the claimed row
partition up to within-row order. -/
theorem row_grouper_amended :
    (∀ (tol : ℚ) (words : List Token),
      agruparPorFilas tol words = groupRowsSpec tol words) ∧
    (∀ (tol : ℚ) (words : List Token), (∀ w ∈ words, w.top ≠ 0) →
      (agruparFilas tol words).map sortByX0 = groupRowsSpec tol words) := by
  constructor
  · intro tol words
    rw [agruparPorFilas, groupRowsSpec]
    cases hs : sortByTop words with
    | nil => rfl
    | cons w ws =>
      show agruparPorFilasGo tol (some w.top) ([] ++ [w]) ws = groupRowsSpecGo tol w.top [w] ws
      rw [List.nil_append]
      exact gpGo_eq_spec tol ws w.top [w] (by simp)
  · intro tol words h
    rw [agruparFilas, groupRowsSpec]
    have hall : ∀ w ∈ sortByTop words, w.top ≠ 0 := by
      intro w hw
      exact h w (mem_sortByTop.mp hw)
    cases hs : sortByTop words with
    | nil => rfl
    | cons w ws =>
      rw [hs] at hall
      show (agruparFilasGo tol (some w.top) ([] ++ [w]) ws).map sortByX0 =
        groupRowsSpecGo tol w.top [w] ws
      rw [List.nil_append]
      exact vGo_eq_spec tol ws w.top [w] (hall w (List.mem_cons_self w ws))
        (fun v hv => hall v (List.mem_cons_of_mem w hv)) (by simp)

/-- C7 witness: on a concrete token list with nonzero `top`s, the Varona
grouping (rows subsequently sorted) equals the claimed algorithm's output. -/
theorem row_grouper_amended_witness :
    (agruparFilas 1 c7posWords).map sortByX0 = groupRowsSpec 1 c7posWords :=
  row_grouper_amended.2 1 c7posWords (by decide)
